import Mathlib

set_option autoImplicit false

namespace Adrf

/-! Shallow embedding of the adrf request pipeline: the dual dispatch paths,
permission and throttle checks (src/adrf/views.py), the serializer lifecycle
(src/adrf/serializers.py), field validation (src/adrf/fields.py), the dotted
attribute resolver (src/adrf/utils.py) and relation fields
(src/adrf/relations.py).  Awaiting a coroutine and bridging a blocking call
through sync_to_async both reduce, for a single request processed by a single
task, to plain function application; the embedding keeps the classification
branches of the source so that the parity arguments are about the code shape,
and instruments each operation with a trace of the checks it actually invoked. -/

/-- Model of an exception object raised by a handler, hook or check. -/
structure Exc where
  code : Nat
deriving DecidableEq, Repr

/-- Model of an HTTP response; only status code and body are observed. -/
structure Response where
  status : Nat
  body : String
deriving DecidableEq, Repr

/-- Model of an incoming HTTP request; dispatch only inspects the method name. -/
structure Request where
  method : String
deriving DecidableEq, Repr

/-- Steps a dispatch path performs, recorded in execution order. -/
inductive Step where
  | init_request
  | initial_hook
  | resolve_handler
  | invoke_handler
  | handle_exc
  | finalize
deriving DecidableEq, Repr

/-- Model of an APIView as seen by APIView.sync_dispatch
(src/adrf/views.py lines 14-42).  The handler table models
getattr(self, request.method.lower(), ...); a handler either returns a
response or raises. -/
structure SyncView where
  http_method_names : List String
  get_handler : String → Option (Request → Except Exc Response)
  http_method_not_allowed : Request → Except Exc Response
  initial : Request → Option Exc
  handle_exception : Exc → Response
  finalize_response : Request → Response → Response
  init_request : Request → Request

/-- Embedding of APIView.sync_dispatch (src/adrf/views.py lines 14-42):
initialize the request, run the initial hook, resolve the method handler or
fall back to http_method_not_allowed, invoke it, translate a raised exception
through handle_exception, and finalize the response.  The second component is
the trace of steps performed, in order. -/
def sync_dispatch (v : SyncView) (req : Request) : Response × List Step :=
  let request := v.init_request req
  match v.initial request with
  | some exc =>
      (v.finalize_response request (v.handle_exception exc),
       [Step.init_request, Step.initial_hook, Step.handle_exc, Step.finalize])
  | none =>
      let m := request.method.toLower
      let handler :=
        if m ∈ v.http_method_names then (v.get_handler m).getD v.http_method_not_allowed
        else v.http_method_not_allowed
      match handler request with
      | Except.ok response =>
          (v.finalize_response request response,
           [Step.init_request, Step.initial_hook, Step.resolve_handler,
            Step.invoke_handler, Step.finalize])
      | Except.error exc =>
          (v.finalize_response request (v.handle_exception exc),
           [Step.init_request, Step.initial_hook, Step.resolve_handler,
            Step.invoke_handler, Step.handle_exc, Step.finalize])

/-- Model of a handler as async_dispatch sees it: classified by
asyncio.iscoroutinefunction as a coroutine function (awaited directly) or a
plain callable (bridged through sync_to_async and awaited). -/
inductive AHandler where
  | coro (f : Request → Except Exc Response)
  | plain (f : Request → Except Exc Response)

/-- Invocation of a handler by async_dispatch: a coroutine function is awaited,
a plain callable is wrapped in sync_to_async and awaited; for one request on
one task both reduce to applying the underlying function. -/
def AHandler.run : AHandler → Request → Except Exc Response
  | AHandler.coro f, r => f r
  | AHandler.plain f, r => f r

/-- Model of an APIView as seen by APIView.async_dispatch
(src/adrf/views.py lines 44-76). -/
structure AsyncView where
  http_method_names : List String
  get_handler : String → Option AHandler
  http_method_not_allowed : AHandler
  initial : Request → Option Exc
  handle_exception : Exc → Response
  finalize_response : Request → Response → Response
  init_request : Request → Request

/-- Embedding of APIView.async_dispatch (src/adrf/views.py lines 44-76): the
same steps as sync_dispatch in the same order, except that the initial hook
runs through sync_to_async and the resolved handler is awaited directly or
through the sync_to_async bridge according to its classification. -/
def async_dispatch (v : AsyncView) (req : Request) : Response × List Step :=
  let request := v.init_request req
  match v.initial request with
  | some exc =>
      (v.finalize_response request (v.handle_exception exc),
       [Step.init_request, Step.initial_hook, Step.handle_exc, Step.finalize])
  | none =>
      let m := request.method.toLower
      let handler :=
        if m ∈ v.http_method_names then (v.get_handler m).getD v.http_method_not_allowed
        else v.http_method_not_allowed
      match AHandler.run handler request with
      | Except.ok response =>
          (v.finalize_response request response,
           [Step.init_request, Step.initial_hook, Step.resolve_handler,
            Step.invoke_handler, Step.finalize])
      | Except.error exc =>
          (v.finalize_response request (v.handle_exception exc),
           [Step.init_request, Step.initial_hook, Step.resolve_handler,
            Step.invoke_handler, Step.handle_exc, Step.finalize])

/-- Failure raised by a permission-check pass: the 403-style denial raised by
self.permission_denied, or a gathered exception re-raised. -/
inductive PermExc where
  | permission_denied
  | raised (e : Exc)
deriving DecidableEq, Repr

/-- Model of a permission whose has_permission is a coroutine function; when
awaited it either returns a boolean or raises. -/
structure AsyncPerm where
  id : Nat
  has_permission : Except Exc Bool
deriving Repr

/-- Model of a permission whose has_permission is a plain callable. -/
structure SyncPerm where
  id : Nat
  has_permission : Bool
deriving DecidableEq, Repr

/-- Inspection loop of APIView.check_async_permissions (src/adrf/views.py
lines 135-143): walk the gathered results in input order, re-raise an
exception result, deny on a falsy result. -/
def inspect_gathered : List (Except Exc Bool) → Except PermExc Unit
  | [] => Except.ok ()
  | Except.error e :: _ => Except.error (PermExc.raised e)
  | Except.ok b :: rest =>
      if b then inspect_gathered rest else Except.error PermExc.permission_denied

/-- Embedding of APIView.check_async_permissions (src/adrf/views.py lines
122-143): asyncio.gather with return_exceptions=True runs every coroutine to
completion and captures exceptions as results, so the invocation trace holds
every permission id before any result is inspected. -/
def check_async_permissions (permissions : List AsyncPerm) :
    List Nat × Except PermExc Unit :=
  (permissions.map AsyncPerm.id,
   inspect_gathered (permissions.map AsyncPerm.has_permission))

/-- Embedding of APIView.check_sync_permissions (src/adrf/views.py lines
145-159): run checks sequentially in list order, denying on the first falsy
result without invoking the remaining checks. -/
def check_sync_permissions : List SyncPerm → List Nat × Except PermExc Unit
  | [] => ([], Except.ok ())
  | p :: rest =>
      if p.has_permission then
        let r := check_sync_permissions rest
        (p.id :: r.1, r.2)
      else ([p.id], Except.error PermExc.permission_denied)

/-- Classification of a configured permission by
asyncio.iscoroutinefunction(permission.has_permission). -/
inductive PermBehavior where
  | sync (result : Bool)
  | coro (result : Except Exc Bool)
deriving Repr

/-- Model of one configured permission object. -/
structure Permission where
  id : Nat
  behavior : PermBehavior
deriving Repr

/-- Classification test used by the partition loop of check_permissions. -/
def Permission.is_coro (p : Permission) : Bool :=
  match p.behavior with
  | PermBehavior.coro _ => true
  | PermBehavior.sync _ => false

/-- SUSPENDING subset built by the partition loop of APIView.check_permissions
(src/adrf/views.py lines 108-114). -/
def async_subset (permissions : List Permission) : List AsyncPerm :=
  permissions.filterMap fun p =>
    match p.behavior with
    | PermBehavior.coro r => some ⟨p.id, r⟩
    | PermBehavior.sync _ => none

/-- SYNC subset built by the partition loop of APIView.check_permissions. -/
def sync_subset (permissions : List Permission) : List SyncPerm :=
  permissions.filterMap fun p =>
    match p.behavior with
    | PermBehavior.coro _ => none
    | PermBehavior.sync b => some ⟨p.id, b⟩

/-- Embedding of APIView.check_permissions (src/adrf/views.py lines 102-120):
partition by classification, run the SUSPENDING subset (through
async_to_sync), then, if that did not raise, run the SYNC subset. -/
def check_permissions (permissions : List Permission) :
    List Nat × Except PermExc Unit :=
  if permissions.isEmpty then ([], Except.ok ())
  else
    let aps := async_subset permissions
    let sps := sync_subset permissions
    let ra := if aps.isEmpty then ([], Except.ok ()) else check_async_permissions aps
    match ra.2 with
    | Except.error e => (ra.1, Except.error e)
    | Except.ok _ =>
        let rs := if sps.isEmpty then ([], Except.ok ()) else check_sync_permissions sps
        (ra.1 ++ rs.1, rs.2)

/-- Model of one configured throttle: the classification of allow_request by
asyncio.iscoroutinefunction, its result, and the wait() duration reported on
denial (None in case of config or rate changes). -/
structure Throttle where
  id : Nat
  is_coro : Bool
  allow_request : Bool
  wait : Option ℚ
deriving DecidableEq, Repr

/-- Embedding of APIView.check_sync_throttles (src/adrf/views.py lines
277-291): consult every throttle in order; for each denial record wait(). -/
def check_sync_throttles : List Throttle → List Nat × List (Option ℚ)
  | [] => ([], [])
  | t :: rest =>
      let r := check_sync_throttles rest
      (t.id :: r.1, if t.allow_request then r.2 else t.wait :: r.2)

/-- Embedding of APIView.check_async_throttles (src/adrf/views.py lines
261-275): the same loop with allow_request awaited. -/
def check_async_throttles : List Throttle → List Nat × List (Option ℚ)
  | [] => ([], [])
  | t :: rest =>
      let r := check_async_throttles rest
      (t.id :: r.1, if t.allow_request then r.2 else t.wait :: r.2)

/-- Failure raised by self.throttled, carrying the reported retry delay. -/
inductive ThrottleExc where
  | throttled (wait : Option ℚ)
deriving DecidableEq, Repr

/-- Embedding of APIView.check_throttles (src/adrf/views.py lines 225-259):
partition by classification, consult the SYNC subset then the SUSPENDING
subset, concatenate all collected denial durations, and when any denial
happened raise throttled with the maximum of the non-None durations (None
when every recorded duration was discarded). -/
def check_throttles (throttles : List Throttle) :
    List Nat × Except ThrottleExc Unit :=
  if throttles.isEmpty then ([], Except.ok ())
  else
    let sync_throttles := throttles.filter fun t => !t.is_coro
    let async_throttles := throttles.filter Throttle.is_coro
    let rs := check_sync_throttles sync_throttles
    let ra := check_async_throttles async_throttles
    let throttle_durations := rs.2 ++ ra.2
    (rs.1 ++ ra.1,
     if throttle_durations.isEmpty then Except.ok ()
     else Except.error (ThrottleExc.throttled (throttle_durations.filterMap id).max?))

/-- Merge of two dicts as written by the Python expression with a double-star
unpacking of each: keys of the first in order (values overridden by the
second where present), then new keys of the second in order. -/
def py_update (a b : List (String × Nat)) : List (String × Nat) :=
  (a.map fun kv =>
    match b.lookup kv.1 with
    | some v => (kv.1, v)
    | none => kv)
  ++ b.filter fun kv => (a.lookup kv.1).isNone

/-- Assertion-class failure (InternalContractViolation in the spec). -/
inductive SaveExc where
  | assertion_error
deriving DecidableEq, Repr

/-- State of a single-instance serializer as BaseSerializer.asave reads it:
whether the _errors attribute exists (set by ais_valid), the recorded error
set, whether the _data representation attribute was computed, whether
_validated_data exists, its value, and the optionally bound instance. -/
structure BaseSerState where
  has_errors_attr : Bool
  errors : List String
  has_data_attr : Bool
  has_validated_data : Bool
  validated_data : List (String × Nat)
  inst : Option Nat
deriving DecidableEq, Repr

/-- Embedding of BaseSerializer.asave (src/adrf/serializers.py lines 104-133):
assert _errors exists, assert the error set is empty, reject a commit kwarg,
assert _data was not computed, merge kwargs into validated_data (accessing the
validated_data property asserts _validated_data exists), then dispatch to
aupdate when an instance is bound and to acreate otherwise, asserting the
returned instance is not None. -/
def base_asave (aupdate : Nat → List (String × Nat) → Option Nat)
    (acreate : List (String × Nat) → Option Nat)
    (commit_in_kwargs : Bool) (kwargs : List (String × Nat))
    (s : BaseSerState) : Except SaveExc Nat :=
  if ¬ s.has_errors_attr then Except.error SaveExc.assertion_error
  else if ¬ s.errors.isEmpty then Except.error SaveExc.assertion_error
  else if commit_in_kwargs then Except.error SaveExc.assertion_error
  else if s.has_data_attr then Except.error SaveExc.assertion_error
  else if ¬ s.has_validated_data then Except.error SaveExc.assertion_error
  else
    let validated_data := py_update s.validated_data kwargs
    match s.inst with
    | some inst =>
        match aupdate inst validated_data with
        | none => Except.error SaveExc.assertion_error
        | some i => Except.ok i
    | none =>
        match acreate validated_data with
        | none => Except.error SaveExc.assertion_error
        | some i => Except.ok i

/-- State of a many-mode serializer as ListSerializer.asave reads it; the
error-set and representation-data attributes are carried to show they are
never consulted. -/
structure ListSerState where
  has_errors_attr : Bool
  errors : List String
  has_data_attr : Bool
  has_validated_data : Bool
  validated_data : List (List (String × Nat))
  inst : Option Nat
deriving DecidableEq, Repr

/-- Embedding of ListSerializer.asave (src/adrf/serializers.py lines 248-271):
reject a commit kwarg, merge kwargs into each item of validated_data (the
validated_data property asserts _validated_data exists), then dispatch to
aupdate or acreate asserting the returned instance is not None.  Unlike
BaseSerializer.asave it performs no _errors, errors or _data assertions. -/
def list_asave (aupdate : Nat → List (List (String × Nat)) → Option Nat)
    (acreate : List (List (String × Nat)) → Option Nat)
    (commit_in_kwargs : Bool) (kwargs : List (String × Nat))
    (s : ListSerState) : Except SaveExc Nat :=
  if commit_in_kwargs then Except.error SaveExc.assertion_error
  else if ¬ s.has_validated_data then Except.error SaveExc.assertion_error
  else
    let validated_data := s.validated_data.map fun attrs => py_update attrs kwargs
    match s.inst with
    | some inst =>
        match aupdate inst validated_data with
        | none => Except.error SaveExc.assertion_error
        | some i => Except.ok i
    | none =>
        match acreate validated_data with
        | none => Except.error SaveExc.assertion_error
        | some i => Except.ok i

/-- State of a single-instance serializer as BaseSerializer.ais_valid reads
and writes it. -/
structure BaseValidState where
  has_initial_data : Bool
  has_validated_data : Bool
  validated_data : List (String × Nat)
  errors : List String
deriving DecidableEq, Repr

/-- Failure raised by ais_valid: the assertion on a missing data kwarg, or
ValidationError(self.errors) when raise_exception is set. -/
inductive AisExc where
  | assertion_error
  | validation_error (detail : List String)
deriving DecidableEq, Repr

/-- Embedding of BaseSerializer.ais_valid (src/adrf/serializers.py lines
135-153).  The outcome of await self.arun_validation(self.initial_data) is a
parameter because it is consulted at most once; the third component of the
result records whether this call ran validation. -/
def base_ais_valid (arun_validation : Except (List String) (List (String × Nat)))
    (raise_exception : Bool) (s : BaseValidState) :
    BaseValidState × Except AisExc Bool × Bool :=
  if ¬ s.has_initial_data then (s, Except.error AisExc.assertion_error, false)
  else
    let step :=
      if ¬ s.has_validated_data then
        match arun_validation with
        | Except.ok vd =>
            ({ s with has_validated_data := true, validated_data := vd, errors := [] }, true)
        | Except.error detail =>
            ({ s with has_validated_data := true, validated_data := [], errors := detail }, true)
      else (s, false)
    if !step.1.errors.isEmpty && raise_exception then
      (step.1, Except.error (AisExc.validation_error step.1.errors), step.2)
    else (step.1, Except.ok step.1.errors.isEmpty, step.2)

/-- State of a many-mode serializer as ListSerializer.ais_valid reads and
writes it. -/
structure ListValidState where
  has_initial_data : Bool
  has_validated_data : Bool
  validated_data : List (List (String × Nat))
  errors : List String
deriving DecidableEq, Repr

/-- Embedding of ListSerializer.ais_valid (src/adrf/serializers.py lines
290-310): identical to the base variant except that the failure branch stores
an empty list rather than an empty dict. -/
def list_ais_valid (arun_validation : Except (List String) (List (List (String × Nat))))
    (raise_exception : Bool) (s : ListValidState) :
    ListValidState × Except AisExc Bool × Bool :=
  if ¬ s.has_initial_data then (s, Except.error AisExc.assertion_error, false)
  else
    let step :=
      if ¬ s.has_validated_data then
        match arun_validation with
        | Except.ok vd =>
            ({ s with has_validated_data := true, validated_data := vd, errors := [] }, true)
        | Except.error detail =>
            ({ s with has_validated_data := true, validated_data := [], errors := detail }, true)
      else (s, false)
    if !step.1.errors.isEmpty && raise_exception then
      (step.1, Except.error (AisExc.validation_error step.1.errors), step.2)
    else (step.1, Except.ok step.1.errors.isEmpty, step.2)

/-- Model of an external Django validation error. -/
structure DjangoErr where
  messages : List String
deriving DecidableEq, Repr

/-- Embedding of rest_framework get_error_detail as consumed here: the
message list adapted from an external Django validation error. -/
def get_error_detail (e : DjangoErr) : List String := e.messages

/-- Outcome of the try-body for one writable field inside
Serializer.ato_internal_value: field.arun_validation on the value fetched by
field.get_value(data) followed by the optional validate_<name> hook; either a
validated value, a ValidationError, an external DjangoValidationError, or
SkipField. -/
inductive FieldTry where
  | ok (v : Nat)
  | validation_error (detail : List String)
  | django_error (e : DjangoErr)
  | skip_field
deriving DecidableEq, Repr

/-- Model of one writable field of an object serializer: declared name,
source attribute, and the validation run on given input data. -/
structure WritableField where
  field_name : String
  source : String
  run_validation : List (String × Nat) → FieldTry

/-- Input of ato_internal_value: a mapping, or a value of another type whose
type name feeds the invalid message. -/
inductive SerializerInput where
  | mapping (data : List (String × Nat))
  | not_mapping (datatype : String)

/-- Default value of api_settings.NON_FIELD_ERRORS_KEY. -/
def non_field_errors_key : String := "non_field_errors"

/-- Message of the invalid error raised on non-mapping input. -/
def invalid_datatype_msg (datatype : String) : String :=
  "Invalid data. Expected a dictionary, but got " ++ datatype ++ "."

/-- Loop of Serializer.ato_internal_value over the writable fields, returning
the trace of validated field names, the assembled native-value dict (set via
the field source attrs) and the error dict. -/
def ato_internal_value_go (fields : List WritableField) (data : List (String × Nat)) :
    List String × List (String × Nat) × List (String × List String) :=
  match fields with
  | [] => ([], [], [])
  | f :: rest =>
      let r := ato_internal_value_go rest data
      match f.run_validation data with
      | FieldTry.ok v => (f.field_name :: r.1, (f.source, v) :: r.2.1, r.2.2)
      | FieldTry.validation_error d =>
          (f.field_name :: r.1, r.2.1, (f.field_name, d) :: r.2.2)
      | FieldTry.django_error e =>
          (f.field_name :: r.1, r.2.1, (f.field_name, get_error_detail e) :: r.2.2)
      | FieldTry.skip_field => (f.field_name :: r.1, r.2.1, r.2.2)

/-- Embedding of Serializer.ato_internal_value (src/adrf/serializers.py lines
167-202): reject non-mapping input with the invalid error under the non-field
key, validate every writable field collecting per-field errors, and raise the
error dict if and only if it is non-empty. -/
def ato_internal_value (fields : List WritableField) (input : SerializerInput) :
    List String × Except (List (String × List String)) (List (String × Nat)) :=
  match input with
  | SerializerInput.not_mapping datatype =>
      ([], Except.error [(non_field_errors_key, [invalid_datatype_msg datatype])])
  | SerializerInput.mapping data =>
      let r := ato_internal_value_go fields data
      (r.1, if r.2.2.isEmpty then Except.ok r.2.1 else Except.error r.2.2)

/-- Detail carried by a ValidationError raised inside arun_validators. -/
inductive ValidationDetail where
  | flat (messages : List String)
  | dict_detail (entries : List (String × List String))
deriving DecidableEq, Repr

/-- Outcome of invoking one validator on the value under validation. -/
inductive VOutcome where
  | ok
  | validation_error (detail : ValidationDetail)
  | django_error (e : DjangoErr)
deriving DecidableEq, Repr

/-- Model of one validator in the declared validator list of a field: its
requires_context flag, its classification by inspect.iscoroutinefunction, and
the outcome of invoking it on the value under validation. -/
structure ValidatorV where
  id : Nat
  requires_context : Bool
  is_coro : Bool
  outcome : VOutcome
deriving DecidableEq, Repr

/-- Invocation of one validator by AsyncFieldMixin.arun_validators
(src/adrf/fields.py lines 88-98): called with the field as second argument
when requires_context, awaited directly when classified a coroutine function
and bridged through sync_to_async otherwise; each of the four shapes produces
the validator outcome on the value. -/
def invoke_validator (v : ValidatorV) : VOutcome :=
  if v.requires_context then
    if v.is_coro then v.outcome else v.outcome
  else
    if v.is_coro then v.outcome else v.outcome

/-- Failure raised by arun_validators: a dict-shaped ValidationError re-raised
unchanged mid-loop, or ValidationError(errors) with the flat accumulated list
raised after the loop. -/
inductive RunValidatorsExc where
  | dict_error (entries : List (String × List String))
  | flat_error (messages : List String)
deriving DecidableEq, Repr

/-- Loop of AsyncFieldMixin.arun_validators (src/adrf/fields.py lines 82-106)
with the accumulated flat error list; the first component is the trace of
invoked validators. -/
def arun_validators_go (vs : List ValidatorV) (errors : List String) :
    List Nat × Except RunValidatorsExc Unit :=
  match vs with
  | [] => ([], if errors.isEmpty then Except.ok ()
               else Except.error (RunValidatorsExc.flat_error errors))
  | v :: rest =>
      match invoke_validator v with
      | VOutcome.ok =>
          let r := arun_validators_go rest errors
          (v.id :: r.1, r.2)
      | VOutcome.validation_error (ValidationDetail.dict_detail entries) =>
          ([v.id], Except.error (RunValidatorsExc.dict_error entries))
      | VOutcome.validation_error (ValidationDetail.flat msgs) =>
          let r := arun_validators_go rest (errors ++ msgs)
          (v.id :: r.1, r.2)
      | VOutcome.django_error e =>
          let r := arun_validators_go rest (errors ++ get_error_detail e)
          (v.id :: r.1, r.2)

/-- Embedding of AsyncFieldMixin.arun_validators. -/
def arun_validators (vs : List ValidatorV) : List Nat × Except RunValidatorsExc Unit :=
  arun_validators_go vs []

/-- Test for a validator whose ValidationError detail is dict-shaped. -/
def ValidatorV.is_dict_error (v : ValidatorV) : Bool :=
  match v.outcome with
  | VOutcome.validation_error (ValidationDetail.dict_detail _) => true
  | _ => false

/-- Messages a validator contributes to the flat accumulated error list. -/
def ValidatorV.contribution (v : ValidatorV) : List String :=
  match v.outcome with
  | VOutcome.ok => []
  | VOutcome.validation_error (ValidationDetail.flat msgs) => msgs
  | VOutcome.validation_error (ValidationDetail.dict_detail _) => []
  | VOutcome.django_error e => get_error_detail e

/-- Model of a primitive value held in a mapping field. -/
inductive PyV where
  | none
  | int (n : Int)
deriving DecidableEq, Repr

/-- Cell of the dict returned by DictField.ato_representation: a materialized
value, or an unawaited coroutine object recorded with the value awaiting it
would produce. -/
inductive ReprCell where
  | done (v : PyV)
  | pending (v : PyV)
deriving DecidableEq, Repr

/-- Model of the child field of a DictField: whether it exposes
ato_representation, and its two representation conversions. -/
structure ChildField where
  has_ato : Bool
  ato_repr : PyV → PyV
  to_repr : PyV → PyV

/-- Content of the first loop of DictField.ato_representation
(src/adrf/fields.py lines 395-400): every child representation awaited. -/
def dictfield_first_loop (child : ChildField) (value : List (String × PyV)) :
    List (String × ReprCell) :=
  value.map fun kv =>
    (kv.1, ReprCell.done (if child.has_ato then child.ato_repr kv.2 else child.to_repr kv.2))

/-- Embedding of DictField.ato_representation (src/adrf/fields.py lines
394-402): the first loop builds a dict of awaited child representations, but
the return statement builds a second dict comprehension from the raw input,
calling child.ato_representation without awaiting it for every non-None
value; the awaited dict is discarded.  The model assumes a child that exposes
ato_representation (with any other child the comprehension raises
AttributeError, outside this model). -/
def dictfield_ato_representation (child : ChildField) (value : List (String × PyV)) :
    List (String × ReprCell) :=
  let result := dictfield_first_loop child value
  value.map fun kv =>
    (kv.1, match kv.2 with
           | PyV.none => ReprCell.done PyV.none
           | w => ReprCell.pending (child.ato_repr w))

/-- Model of a Python object as the dotted attribute resolver sees it:
mappings (key lookup), plain objects (attribute lookup), model instances
carrying a pk, plain callables returning a value, callables raising inside
(wrapped into ValueError by the resolver), related managers exposing all(),
and lists.  ORM foreign-key point lookups are outside the model. -/
inductive PyVal where
  | none
  | int (n : Int)
  | str (s : String)
  | mapping (entries : List (String × PyVal))
  | obj (attrs : List (String × PyVal))
  | model_inst (pk : PyVal) (attrs : List (String × PyVal))
  | callable0 (result : PyVal)
  | bad_callable
  | manager (items : List PyVal)
  | pylist (items : List PyVal)

/-- Model of getattr on a non-mapping value: objects and model instances
expose their attributes (a model instance its pk), a related manager exposes
a callable all(); other values have no attributes. -/
def py_getattr : PyVal → String → Option PyVal
  | PyVal.obj attrs, a => attrs.lookup a
  | PyVal.model_inst pk attrs, a => if a = "pk" then some pk else attrs.lookup a
  | PyVal.manager items, a =>
      if a = "all" then some (PyVal.callable0 (PyVal.pylist items)) else Option.none
  | _, _ => Option.none

/-- Fetch of one hop in utils.aget_attribute (src/adrf/utils.py lines
113-126): key lookup for a Mapping, getattr otherwise; None models the
KeyError or AttributeError of a missing member. -/
def fetch_attr (inst : PyVal) (a : String) : Option PyVal :=
  match inst with
  | PyVal.mapping entries => entries.lookup a
  | _ => py_getattr inst a

/-- Failure escaping the dotted resolver or a field-level fetch. -/
inductive UtilsExc where
  | value_error
  | key_error
  | attribute_error
deriving DecidableEq, Repr

/-- Invocation step of utils.aget_attribute (src/adrf/utils.py lines
133-142): a callable fetched value is invoked (awaited when classified
suspend-capable); a KeyError or AttributeError raised inside the call is
wrapped into a ValueError; a non-callable value passes through. -/
def call_if_callable : PyVal → Except UtilsExc PyVal
  | PyVal.callable0 r => Except.ok r
  | PyVal.bad_callable => Except.error UtilsExc.value_error
  | v => Except.ok v

/-- Embedding of utils.aget_attribute (src/adrf/utils.py lines 105-144): walk
the dotted source path; a missing key or attribute is caught inside the loop
and None is returned; a fetched callable is invoked.  The first component is
the trace of hops actually attempted. -/
def utils_aget_attribute : PyVal → List String → List String × Except UtilsExc PyVal
  | inst, [] => ([], Except.ok inst)
  | inst, a :: rest =>
      match fetch_attr inst a with
      | Option.none => ([a], Except.ok PyVal.none)
      | some v =>
          match call_if_callable v with
          | Except.error e => ([a], Except.error e)
          | Except.ok w =>
              let t := utils_aget_attribute w rest
              (a :: t.1, t.2)

/-- Policy attributes of a field as its aget_attribute fallback reads them. -/
structure FieldCfg where
  source_attrs : List String
  default : Option PyVal
  allow_null : Bool
  required : Bool

/-- Result of a field-level attribute fetch. -/
inductive FieldGetResult where
  | got (v : PyVal)
  | skip_field
  | error_out (e : UtilsExc)

/-- Embedding of AsyncField.aget_attribute (src/adrf/fields.py lines
157-196): delegate to the dotted resolver; a KeyError or AttributeError
escaping it selects default, then allow_null, then SkipField for a
non-required field, then re-raises; a ValueError propagates.  The
BuiltinSignatureError branch concerns built-in callables outside this
model. -/
def field_aget_attribute (f : FieldCfg) (inst : PyVal) : List String × FieldGetResult :=
  let t := utils_aget_attribute inst f.source_attrs
  (t.1,
   match t.2 with
   | Except.ok v => FieldGetResult.got v
   | Except.error UtilsExc.value_error => FieldGetResult.error_out UtilsExc.value_error
   | Except.error e =>
       match f.default with
       | some d => FieldGetResult.got d
       | Option.none =>
           if f.allow_null then FieldGetResult.got PyVal.none
           else if ¬ f.required then FieldGetResult.skip_field
           else FieldGetResult.error_out e)

/-- Model of one readable field of an object serializer: name, policy
attributes, classification of its ato_representation by
asyncio.iscoroutinefunction, and the two representation conversions. -/
structure ReadableField where
  field_name : String
  cfg : FieldCfg
  has_ato : Bool
  ato_repr : PyVal → PyVal
  to_repr : PyVal → PyVal

/-- Null test of Serializer.ato_representation: the pk of a model instance,
the attribute itself otherwise. -/
def check_for_none : PyVal → PyVal
  | PyVal.model_inst pk _ => pk
  | v => v

/-- Embedding of Serializer.ato_representation (src/adrf/serializers.py lines
204-229): iterate the readable fields in declared order; a SkipField from the
attribute fetch omits the field; a None attribute (or a model instance with a
None pk) is emitted as None; otherwise the representation classified by the
capability test is assigned under the field name. -/
def serializer_ato_representation (fields : List ReadableField) (inst : PyVal) :
    Except UtilsExc (List (String × PyVal)) :=
  match fields with
  | [] => Except.ok []
  | f :: rest =>
      match (field_aget_attribute f.cfg inst).2 with
      | FieldGetResult.skip_field => serializer_ato_representation rest inst
      | FieldGetResult.error_out e => Except.error e
      | FieldGetResult.got attr_value =>
          let entry :=
            match check_for_none attr_value with
            | PyVal.none => (f.field_name, PyVal.none)
            | _ => (f.field_name,
                    if f.has_ato then f.ato_repr attr_value else f.to_repr attr_value)
          match serializer_ato_representation rest inst with
          | Except.ok ret => Except.ok (entry :: ret)
          | Except.error e => Except.error e

/-- Embedding of ManyRelatedField.aget_attribute (src/adrf/relations.py lines
242-271): when the instance has a pk attribute that is None, return the empty
list at once; otherwise resolve the dotted source path with the same fallback
policy as a plain field and return relationship.all() when the resolved value
exposes all(). -/
def many_related_aget_attribute (f : FieldCfg) (inst : PyVal) :
    List String × FieldGetResult :=
  match py_getattr inst "pk" with
  | some PyVal.none => ([], FieldGetResult.got (PyVal.pylist []))
  | _ =>
      let t := utils_aget_attribute inst f.source_attrs
      (t.1,
       match t.2 with
       | Except.ok relationship =>
           (match py_getattr relationship "all" with
            | some (PyVal.callable0 r) => FieldGetResult.got r
            | _ => FieldGetResult.got relationship)
       | Except.error UtilsExc.value_error => FieldGetResult.error_out UtilsExc.value_error
       | Except.error e =>
           match f.default with
           | some d => FieldGetResult.got d
           | Option.none =>
               if f.allow_null then FieldGetResult.got PyVal.none
               else if ¬ f.required then FieldGetResult.skip_field
               else FieldGetResult.error_out e)

end Adrf

namespace Adrf

/-- C1.  The suspend-capable dispatch path performs the same steps in the same
order as the synchronous one, so when the two views share their hooks and
their handlers produce the same logical results, dispatch through either path
yields a response with identical status code and body (and an identical step
trace). -/
theorem dispatch_parity (sv : SyncView) (av : AsyncView) (req : Request)
    (h_init : av.init_request = sv.init_request)
    (h_names : av.http_method_names = sv.http_method_names)
    (h_initial : av.initial = sv.initial)
    (h_he : av.handle_exception = sv.handle_exception)
    (h_fin : av.finalize_response = sv.finalize_response)
    (h_mna : ∀ r, AHandler.run av.http_method_not_allowed r = sv.http_method_not_allowed r)
    (h_dom : ∀ m, (av.get_handler m).isSome = (sv.get_handler m).isSome)
    (h_agn : ∀ m ah f, av.get_handler m = some ah → sv.get_handler m = some f →
      ∀ r, AHandler.run ah r = f r) :
    (async_dispatch av req).1.status = (sync_dispatch sv req).1.status ∧
    (async_dispatch av req).1.body = (sync_dispatch sv req).1.body ∧
    (async_dispatch av req).2 = (sync_dispatch sv req).2 := by
  have key : async_dispatch av req = sync_dispatch sv req := by
    simp only [async_dispatch, sync_dispatch]
    rw [h_init, h_initial, h_he, h_fin, h_names]
    cases hini : sv.initial (sv.init_request req) with
    | some exc => rfl
    | none =>
      by_cases hm : (sv.init_request req).method.toLower ∈ sv.http_method_names
      · simp only [hm, if_true]
        cases ha : av.get_handler (sv.init_request req).method.toLower with
        | none =>
          have hd := h_dom (sv.init_request req).method.toLower
          rw [ha] at hd
          cases hx : sv.get_handler (sv.init_request req).method.toLower with
          | some f => rw [hx] at hd; simp at hd
          | none =>
            simp only [Option.getD_none]
            rw [h_mna (sv.init_request req)]
        | some ah =>
          have hd := h_dom (sv.init_request req).method.toLower
          rw [ha] at hd
          cases hx : sv.get_handler (sv.init_request req).method.toLower with
          | none => rw [hx] at hd; simp at hd
          | some f =>
            simp only [Option.getD_some]
            rw [h_agn _ ah f ha hx (sv.init_request req)]
      · simp only [hm, if_false]
        rw [h_mna (sv.init_request req)]
  rw [key]
  exact ⟨rfl, rfl, rfl⟩

/-- Witness for C1 at a concrete pair of views agreeing on a GET handler. -/
theorem dispatch_parity_witness :
    (async_dispatch
      { http_method_names := ["get"]
        get_handler := fun m => if m = "get" then some (AHandler.coro (fun _ => Except.ok ⟨200, "hello"⟩)) else none
        http_method_not_allowed := AHandler.plain (fun _ => Except.error ⟨405⟩)
        initial := fun _ => none
        handle_exception := fun e => ⟨e.code, "error"⟩
        finalize_response := fun _ r => r
        init_request := id } ⟨"GET"⟩).1.status =
    (sync_dispatch
      { http_method_names := ["get"]
        get_handler := fun m => if m = "get" then some (fun _ => Except.ok ⟨200, "hello"⟩) else none
        http_method_not_allowed := fun _ => Except.error ⟨405⟩
        initial := fun _ => none
        handle_exception := fun e => ⟨e.code, "error"⟩
        finalize_response := fun _ r => r
        init_request := id } ⟨"GET"⟩).1.status := by
  refine (dispatch_parity _ _ _ rfl rfl rfl rfl rfl ?_ ?_ ?_).1
  · intro r; rfl
  · intro m
    by_cases h : m = "get" <;> simp [h]
  · intro m ah f hah hf r
    by_cases h : m = "get"
    · subst h
      simp only [if_pos] at hah hf
      cases hah; cases hf; rfl
    · simp [h] at hah

theorem async_subset_ids (ps : List Permission) :
    (async_subset ps).map AsyncPerm.id
      = (ps.filter Permission.is_coro).map Permission.id := by
  induction ps with
  | nil => rfl
  | cons p rest ih =>
    cases hb : p.behavior with
    | sync b => simp [async_subset, List.filterMap_cons, hb, Permission.is_coro, List.filter_cons,
        async_subset] at ih ⊢ <;> exact ih
    | coro r => simp [async_subset, List.filterMap_cons, hb, Permission.is_coro, List.filter_cons,
        async_subset] at ih ⊢ <;> exact ih

theorem sync_subset_ids (ps : List Permission) :
    (sync_subset ps).map SyncPerm.id
      = (ps.filter (fun p => !p.is_coro)).map Permission.id := by
  induction ps with
  | nil => rfl
  | cons p rest ih =>
    cases hb : p.behavior with
    | sync b => simp [sync_subset, List.filterMap_cons, hb, Permission.is_coro, List.filter_cons,
        sync_subset] at ih ⊢ <;> exact ih
    | coro r => simp [sync_subset, List.filterMap_cons, hb, Permission.is_coro, List.filter_cons,
        sync_subset] at ih ⊢ <;> exact ih

theorem inspect_gathered_ok_iff (rs : List (Except Exc Bool)) :
    inspect_gathered rs = Except.ok () ↔ ∀ r ∈ rs, r = Except.ok true := by
  induction rs with
  | nil => simp [inspect_gathered]
  | cons r rest ih =>
    cases r with
    | error e => simp [inspect_gathered]
    | ok b => cases b <;> simp [inspect_gathered, ih]

theorem inspect_gathered_first (pre : List (Except Exc Bool)) (r : Except Exc Bool)
    (post : List (Except Exc Bool)) (hpre : ∀ q ∈ pre, q = Except.ok true) :
    inspect_gathered (pre ++ r :: post)
      = match r with
        | Except.error e => Except.error (PermExc.raised e)
        | Except.ok false => Except.error PermExc.permission_denied
        | Except.ok true => inspect_gathered post := by
  induction pre with
  | nil =>
    cases r with
    | error e => rfl
    | ok b => cases b <;> simp [inspect_gathered]
  | cons q rest ih =>
    have hq : q = Except.ok true := hpre q (by simp)
    subst hq
    simp only [List.cons_append, inspect_gathered, if_true]
    exact ih fun x hx => hpre x (by simp [hx])

theorem check_sync_permissions_all_true (sps : List SyncPerm)
    (h : ∀ q ∈ sps, q.has_permission = true) :
    check_sync_permissions sps = (sps.map SyncPerm.id, Except.ok ()) := by
  induction sps with
  | nil => rfl
  | cons p rest ih =>
    have hp : p.has_permission = true := h p (by simp)
    simp [check_sync_permissions, hp, ih fun q hq => h q (by simp [hq])]

theorem check_sync_permissions_first_false (pre : List SyncPerm) (p : SyncPerm)
    (post : List SyncPerm) (hpre : ∀ q ∈ pre, q.has_permission = true)
    (hp : p.has_permission = false) :
    check_sync_permissions (pre ++ p :: post)
      = (pre.map SyncPerm.id ++ [p.id], Except.error PermExc.permission_denied) := by
  induction pre with
  | nil => simp [check_sync_permissions, hp]
  | cons q rest ih =>
    have hq : q.has_permission = true := hpre q (by simp)
    have ihr := ih fun x hx => hpre x (by simp [hx])
    simp only [List.cons_append, check_sync_permissions, hq, if_true, List.append_eq, ihr,
      List.map_cons]

/-- C2.  check_permissions partitions the configured permissions by whether
has_permission is a coroutine function; the whole SUSPENDING subset is
gathered to completion (exceptions captured) before any result is inspected,
the inspection re-raises an exception result and turns a falsy result into
the 403-style denial, in input order; the SYNC subset runs sequentially and
denies on the first falsy result without invoking the remaining checks. -/
theorem check_permissions_spec (permissions : List Permission) :
    ((async_subset permissions).map AsyncPerm.id
        = (permissions.filter Permission.is_coro).map Permission.id)
    ∧ ((sync_subset permissions).map SyncPerm.id
        = (permissions.filter (fun p => !p.is_coro)).map Permission.id)
    ∧ (∀ aps : List AsyncPerm, (check_async_permissions aps).1 = aps.map AsyncPerm.id)
    ∧ ((check_permissions permissions).1.take (async_subset permissions).length
        = (async_subset permissions).map AsyncPerm.id)
    ∧ (∀ aps : List AsyncPerm,
        ((check_async_permissions aps).2 = Except.ok ()
          ↔ ∀ p ∈ aps, p.has_permission = Except.ok true))
    ∧ (∀ pre p post, (∀ q ∈ pre, AsyncPerm.has_permission q = Except.ok true) →
        (∀ e, p.has_permission = Except.error e →
          (check_async_permissions (pre ++ p :: post)).2 = Except.error (PermExc.raised e))
        ∧ (p.has_permission = Except.ok false →
          (check_async_permissions (pre ++ p :: post)).2
            = Except.error PermExc.permission_denied))
    ∧ (∀ sps : List SyncPerm, (∀ q ∈ sps, q.has_permission = true) →
        check_sync_permissions sps = (sps.map SyncPerm.id, Except.ok ()))
    ∧ (∀ pre p post, (∀ q ∈ pre, SyncPerm.has_permission q = true) →
        SyncPerm.has_permission p = false →
        check_sync_permissions (pre ++ p :: post)
          = (pre.map SyncPerm.id ++ [p.id], Except.error PermExc.permission_denied)) := by
  refine ⟨async_subset_ids permissions, sync_subset_ids permissions, fun aps => rfl, ?_, ?_, ?_, ?_, ?_⟩
  · by_cases hemp : permissions.isEmpty
    · have h0 : permissions = [] := List.isEmpty_iff.mp hemp
      subst h0
      rfl
    · simp only [check_permissions]
      rw [if_neg hemp]
      by_cases haps : (async_subset permissions).isEmpty
      · have h0 : async_subset permissions = [] := List.isEmpty_iff.mp haps
        rw [if_pos haps]
        simp [h0]
      · rw [if_neg haps]
        simp only [check_async_permissions]
        cases hins : inspect_gathered ((async_subset permissions).map AsyncPerm.has_permission) with
        | error e =>
          simp only [hins]
          rw [← List.length_map (async_subset permissions) AsyncPerm.id]
          exact List.take_length _
        | ok u =>
          simp only [hins]
          rw [← List.length_map (async_subset permissions) AsyncPerm.id]
          exact List.take_left _ _
  · intro aps
    simp only [check_async_permissions]
    rw [inspect_gathered_ok_iff]
    constructor
    · intro h p hp
      have := h (p.has_permission) (List.mem_map_of_mem _ hp)
      exact this
    · intro h r hr
      rcases List.mem_map.mp hr with ⟨p, hp, rfl⟩
      exact h p hp
  · intro pre p post hpre
    have hkey : inspect_gathered ((pre.map AsyncPerm.has_permission)
        ++ p.has_permission :: post.map AsyncPerm.has_permission)
        = match p.has_permission with
          | Except.error e => Except.error (PermExc.raised e)
          | Except.ok false => Except.error PermExc.permission_denied
          | Except.ok true => inspect_gathered (post.map AsyncPerm.has_permission) := by
      refine inspect_gathered_first _ _ _ ?_
      intro q hq
      rcases List.mem_map.mp hq with ⟨x, hx, rfl⟩
      exact hpre x hx
    constructor
    · intro e he
      simp only [check_async_permissions, List.map_append, List.map_cons]
      rw [hkey, he]
    · intro he
      simp only [check_async_permissions, List.map_append, List.map_cons]
      rw [hkey, he]
  · exact check_sync_permissions_all_true
  · exact check_sync_permissions_first_false

/-- Witness for C2 at concrete permission lists: a gathered denial is reported
after the whole SUSPENDING subset completed, and a SYNC denial short-circuits. -/
theorem check_permissions_spec_witness :
    (check_async_permissions
        [⟨1, Except.ok true⟩, ⟨2, Except.ok false⟩]).2
      = Except.error PermExc.permission_denied
    ∧ check_sync_permissions [⟨3, true⟩, ⟨4, false⟩, ⟨5, true⟩]
      = ([3, 4], Except.error PermExc.permission_denied) := by
  have h := check_permissions_spec []
  constructor
  · exact (h.2.2.2.2.2.1 [⟨1, Except.ok true⟩] ⟨2, Except.ok false⟩ []
      (by intro q hq; simp at hq; rw [hq])).2 rfl
  · exact h.2.2.2.2.2.2.2 [⟨3, true⟩] ⟨4, false⟩ [⟨5, true⟩]
      (by intro q hq; simp at hq; rw [hq]) rfl

theorem check_sync_throttles_parts (ts : List Throttle) :
    (check_sync_throttles ts).1 = ts.map Throttle.id
    ∧ (check_sync_throttles ts).2
        = (ts.filter fun t => !t.allow_request).map Throttle.wait := by
  induction ts with
  | nil => exact ⟨rfl, rfl⟩
  | cons t rest ih =>
    cases ha : t.allow_request <;>
      simp [check_sync_throttles, ha, List.filter_cons, ih.1, ih.2]

theorem check_async_throttles_parts (ts : List Throttle) :
    (check_async_throttles ts).1 = ts.map Throttle.id
    ∧ (check_async_throttles ts).2
        = (ts.filter fun t => !t.allow_request).map Throttle.wait := by
  induction ts with
  | nil => exact ⟨rfl, rfl⟩
  | cons t rest ih =>
    cases ha : t.allow_request <;>
      simp [check_async_throttles, ha, List.filter_cons, ih.1, ih.2]

/-- C3.  check_throttles consults every configured throttle in both subsets
(no short-circuit on a denial); when at least one throttle denies it raises
throttled carrying the maximum of the non-None wait durations of the denying
throttles (None when every collected duration was discarded), and when no
throttle denies it returns without raising. -/
theorem check_throttles_spec (throttles : List Throttle) :
    (∀ t ∈ throttles, t.id ∈ (check_throttles throttles).1)
    ∧ ((check_throttles throttles).2 = Except.ok ()
        ↔ ∀ t ∈ throttles, t.allow_request = true)
    ∧ (∀ d, (check_throttles throttles).2 = Except.error (ThrottleExc.throttled d) →
        (d = none → ∀ t ∈ throttles, t.allow_request = false → t.wait = none)
        ∧ (∀ w, d = some w →
            (∃ t ∈ throttles, t.allow_request = false ∧ t.wait = some w)
            ∧ ∀ t ∈ throttles, t.allow_request = false →
                ∀ u, t.wait = some u → u ≤ w)) := by
  by_cases hemp : throttles.isEmpty
  · have h0 : throttles = [] := List.isEmpty_iff.mp hemp
    subst h0
    refine ⟨by simp, by simp [check_throttles], ?_⟩
    intro d hd
    simp [check_throttles] at hd
  · have hsp := check_sync_throttles_parts (throttles.filter fun t => !t.is_coro)
    have hap := check_async_throttles_parts (throttles.filter Throttle.is_coro)
    have hsplit : ∀ t ∈ throttles,
        t ∈ throttles.filter (fun t => !t.is_coro) ∨ t ∈ throttles.filter Throttle.is_coro := by
      intro t ht
      cases hc : t.is_coro with
      | false => exact Or.inl (List.mem_filter.mpr ⟨ht, by simp [hc]⟩)
      | true => exact Or.inr (List.mem_filter.mpr ⟨ht, by simp [hc]⟩)
    have hdur : (check_sync_throttles (throttles.filter fun t => !t.is_coro)).2
        ++ (check_async_throttles (throttles.filter Throttle.is_coro)).2
        = ((throttles.filter fun t => !t.is_coro).filter (fun t => !t.allow_request)).map Throttle.wait
          ++ ((throttles.filter Throttle.is_coro).filter (fun t => !t.allow_request)).map Throttle.wait := by
      rw [hsp.2, hap.2]
    have hdeny_mem : ∀ t ∈ throttles, t.allow_request = false →
        t.wait ∈ (check_sync_throttles (throttles.filter fun t => !t.is_coro)).2
          ++ (check_async_throttles (throttles.filter Throttle.is_coro)).2 := by
      intro t ht hdeny
      rw [hdur]
      rcases hsplit t ht with h | h
      · exact List.mem_append_left _
          (List.mem_map_of_mem _ (List.mem_filter.mpr ⟨h, by simp [hdeny]⟩))
      · exact List.mem_append_right _
          (List.mem_map_of_mem _ (List.mem_filter.mpr ⟨h, by simp [hdeny]⟩))
    have hmem_deny : ∀ o, o ∈ (check_sync_throttles (throttles.filter fun t => !t.is_coro)).2
          ++ (check_async_throttles (throttles.filter Throttle.is_coro)).2 →
        ∃ t ∈ throttles, t.allow_request = false ∧ t.wait = o := by
      intro o ho
      rw [hdur] at ho
      rcases List.mem_append.mp ho with h | h <;>
      · rcases List.mem_map.mp h with ⟨t, ht, rfl⟩
        have h1 := List.mem_filter.mp ht
        have h2 := List.mem_filter.mp h1.1
        refine ⟨t, h2.1, ?_, rfl⟩
        simpa using h1.2
    have heq : check_throttles throttles
        = ((check_sync_throttles (throttles.filter fun t => !t.is_coro)).1
            ++ (check_async_throttles (throttles.filter Throttle.is_coro)).1,
           if ((check_sync_throttles (throttles.filter fun t => !t.is_coro)).2
               ++ (check_async_throttles (throttles.filter Throttle.is_coro)).2).isEmpty
           then Except.ok ()
           else Except.error (ThrottleExc.throttled
             ((((check_sync_throttles (throttles.filter fun t => !t.is_coro)).2
               ++ (check_async_throttles (throttles.filter Throttle.is_coro)).2).filterMap
                   id).max?))) := by
      simp only [check_throttles]
      rw [if_neg hemp]
    refine ⟨?_, ?_, ?_⟩
    · intro t ht
      rw [heq]
      simp only
      rw [hsp.1, hap.1]
      rcases hsplit t ht with h | h
      · exact List.mem_append_left _ (List.mem_map_of_mem _ h)
      · exact List.mem_append_right _ (List.mem_map_of_mem _ h)
    · rw [heq]
      simp only
      by_cases hd : ((check_sync_throttles (throttles.filter fun t => !t.is_coro)).2
          ++ (check_async_throttles (throttles.filter Throttle.is_coro)).2).isEmpty
      · rw [if_pos hd]
        have hnil := List.isEmpty_iff.mp hd
        constructor
        · intro _ t ht
          by_contra hfalse
          have hfd : t.allow_request = false := by
            cases hx : t.allow_request
            · rfl
            · exact absurd hx hfalse
          have hin := hdeny_mem t ht hfd
          rw [hnil] at hin
          simp at hin
        · intro _; rfl
      · rw [if_neg hd]
        constructor
        · intro h; simp at h
        · intro h
          exfalso
          have hne : (check_sync_throttles (throttles.filter fun t => !t.is_coro)).2
              ++ (check_async_throttles (throttles.filter Throttle.is_coro)).2 ≠ [] :=
            fun h0 => hd (by simp [h0])
          rcases List.exists_mem_of_ne_nil _ hne with ⟨o, ho⟩
          rcases hmem_deny o ho with ⟨t, ht, hdeny, _⟩
          rw [h t ht] at hdeny
          simp at hdeny
    · intro d hd
      rw [heq] at hd
      simp only at hd
      by_cases hde : ((check_sync_throttles (throttles.filter fun t => !t.is_coro)).2
          ++ (check_async_throttles (throttles.filter Throttle.is_coro)).2).isEmpty
      · rw [if_pos hde] at hd
        simp at hd
      · rw [if_neg hde] at hd
        simp only [Except.error.injEq, ThrottleExc.throttled.injEq] at hd
        constructor
        · intro hnone t ht hdeny
          rw [hnone] at hd
          have hfm := List.max?_eq_none_iff.mp hd
          have hw := hdeny_mem t ht hdeny
          cases hwv : t.wait with
          | none => rfl
          | some w =>
            exfalso
            rw [hwv] at hw
            have hwm : w ∈ (((check_sync_throttles (throttles.filter fun t => !t.is_coro)).2
                ++ (check_async_throttles (throttles.filter Throttle.is_coro)).2).filterMap id) :=
              List.mem_filterMap.mpr ⟨some w, hw, rfl⟩
            rw [hfm] at hwm
            simp at hwm
        · intro w hw
          rw [hw] at hd
          have hanti : Std.Antisymm (α := ℚ) (· ≤ ·) := ⟨fun h h2 => le_antisymm h h2⟩
          rw [List.max?_eq_some_iff] at hd
          rotate_left
          · exact fun a => le_refl a
          · exact fun a b => max_choice a b
          · exact fun a b c => max_le_iff
          constructor
          · rcases List.mem_filterMap.mp hd.1 with ⟨o, ho, hid⟩
            rcases hmem_deny o ho with ⟨t, ht, hdeny, hwait⟩
            refine ⟨t, ht, hdeny, ?_⟩
            rw [hwait]
            exact hid
          · intro t ht hdeny u hu
            have hmem := hdeny_mem t ht hdeny
            rw [hu] at hmem
            exact hd.2 u (List.mem_filterMap.mpr ⟨some u, hmem, rfl⟩)

/-- Witness for C3: two denying throttles with waits 2 and 5 and one passing
throttle; every throttle is consulted and the reported wait is 5. -/
theorem check_throttles_spec_witness :
    (2 : Nat) ∈ (check_throttles
      [⟨1, false, false, some 2⟩, ⟨2, true, false, some 5⟩, ⟨3, false, true, none⟩]).1
    ∧ (∀ u : ℚ, (Throttle.mk 1 false false (some 2)).wait = some u → u ≤ 5) := by
  have h := check_throttles_spec
    [⟨1, false, false, some 2⟩, ⟨2, true, false, some 5⟩, ⟨3, false, true, none⟩]
  constructor
  · exact h.1 ⟨2, true, false, some 5⟩ (by simp)
  · exact ((h.2.2 (some 5) rfl).2 5 rfl).2 ⟨1, false, false, some 2⟩ (by simp) rfl

/-- C4 counterexample.  A many-mode serializer whose recorded error set is
non-empty (and whose representation data was already computed): asave does
not raise an assertion-class error but dispatches acreate and succeeds, so
the claim fails for many-mode serializers. -/
theorem list_asave_invalid_counterexample :
    (ListSerState.mk true ["invalid"] true true [] none).errors ≠ []
    ∧ list_asave (fun _ _ => none) (fun _ => some 7) false []
        (ListSerState.mk true ["invalid"] true true [] none) = Except.ok 7 := by
  exact ⟨by simp, rfl⟩

/-- C4 (amended).  For single-instance serializers asave raises an
assertion-class error before a validity check, on a non-empty error set, and
after the data representation was computed; with the preconditions satisfied
it dispatches to aupdate when an instance is bound and to acreate otherwise
and raises an assertion-class error on a None result.  For many-mode
serializers only the commit-kwarg check and the validated-data presence check
guard the same dispatch; the error-set and computed-data checks are absent. -/
theorem asave_spec
    (aupdate : Nat → List (String × Nat) → Option Nat)
    (acreate : List (String × Nat) → Option Nat)
    (lupdate : Nat → List (List (String × Nat)) → Option Nat)
    (lcreate : List (List (String × Nat)) → Option Nat)
    (kwargs : List (String × Nat)) (s : BaseSerState) (t : ListSerState) :
    (s.has_errors_attr = false →
      base_asave aupdate acreate false kwargs s = Except.error SaveExc.assertion_error)
    ∧ (s.errors ≠ [] →
      base_asave aupdate acreate false kwargs s = Except.error SaveExc.assertion_error)
    ∧ (s.has_data_attr = true →
      base_asave aupdate acreate false kwargs s = Except.error SaveExc.assertion_error)
    ∧ (base_asave aupdate acreate true kwargs s = Except.error SaveExc.assertion_error)
    ∧ (s.has_errors_attr = true → s.errors = [] → s.has_data_attr = false →
        s.has_validated_data = true →
        base_asave aupdate acreate false kwargs s
          = match s.inst with
            | some inst =>
                match aupdate inst (py_update s.validated_data kwargs) with
                | none => Except.error SaveExc.assertion_error
                | some i => Except.ok i
            | none =>
                match acreate (py_update s.validated_data kwargs) with
                | none => Except.error SaveExc.assertion_error
                | some i => Except.ok i)
    ∧ (list_asave lupdate lcreate true kwargs t = Except.error SaveExc.assertion_error)
    ∧ (t.has_validated_data = false →
        list_asave lupdate lcreate false kwargs t = Except.error SaveExc.assertion_error)
    ∧ (t.has_validated_data = true →
        list_asave lupdate lcreate false kwargs t
          = match t.inst with
            | some inst =>
                match lupdate inst (t.validated_data.map fun attrs => py_update attrs kwargs) with
                | none => Except.error SaveExc.assertion_error
                | some i => Except.ok i
            | none =>
                match lcreate (t.validated_data.map fun attrs => py_update attrs kwargs) with
                | none => Except.error SaveExc.assertion_error
                | some i => Except.ok i) := by
  refine ⟨?_, ?_, ?_, ?_, ?_, ?_, ?_, ?_⟩
  · intro h
    simp [base_asave, h]
  · intro h
    by_cases he : s.has_errors_attr
    · simp [base_asave, he, h]
    · simp [base_asave, he]
  · intro h
    by_cases he : s.has_errors_attr
    · by_cases herr : s.errors.isEmpty
      · simp [base_asave, he, herr, h]
      · simp [base_asave, he, herr]
    · simp [base_asave, he]
  · by_cases he : s.has_errors_attr
    · by_cases herr : s.errors.isEmpty
      · simp [base_asave, he, herr]
      · simp [base_asave, he, herr]
    · simp [base_asave, he]
  · intro h1 h2 h3 h4
    simp [base_asave, h1, h2, h3, h4]
  · simp [list_asave]
  · intro h
    simp [list_asave, h]
  · intro h
    simp [list_asave, h]

/-- Witness for C4: a base serializer with a non-empty error set is rejected,
and a many-mode serializer with the preconditions satisfied creates. -/
theorem asave_spec_witness :
    base_asave (fun _ _ => none) (fun _ => none) false []
      (BaseSerState.mk true ["bad"] false true [] none)
      = Except.error SaveExc.assertion_error
    ∧ list_asave (fun _ _ => none) (fun _ => some 3) false []
        (ListSerState.mk true [] false true [[("a", 1)]] none) = Except.ok 3 := by
  have h := asave_spec (fun _ _ => none) (fun _ => none) (fun _ _ => none) (fun _ => some 3)
    [] (BaseSerState.mk true ["bad"] false true [] none)
    (ListSerState.mk true [] false true [[("a", 1)]] none)
  exact ⟨h.2.1 (by simp), (h.2.2.2.2.2.2.2 rfl).trans rfl⟩

theorem base_ais_valid_first (o : Except (List String) (List (String × Nat)))
    (f : Bool) (s : BaseValidState) (hi : s.has_initial_data = true)
    (hf : s.has_validated_data = false) :
    base_ais_valid o f s
      = (match o with
         | Except.ok vd =>
            let s2 := { s with has_validated_data := true, validated_data := vd, errors := [] }
            (s2, Except.ok true, true)
         | Except.error detail =>
            let s2 := { s with has_validated_data := true, validated_data := [],
                               errors := detail }
            (s2,
             if !detail.isEmpty && f then Except.error (AisExc.validation_error detail)
             else Except.ok detail.isEmpty, true)) := by
  cases o with
  | ok vd => simp [base_ais_valid, hi, hf]
  | error detail =>
    by_cases hc : ¬detail = [] ∧ f = true <;> simp [base_ais_valid, hi, hf, hc]

theorem base_ais_valid_second (o : Except (List String) (List (String × Nat)))
    (f : Bool) (s : BaseValidState) (hi : s.has_initial_data = true)
    (hv : s.has_validated_data = true) :
    base_ais_valid o f s
      = (s,
         if !s.errors.isEmpty && f then Except.error (AisExc.validation_error s.errors)
         else Except.ok s.errors.isEmpty, false) := by
  by_cases hc : ¬s.errors = [] ∧ f = true <;> simp [base_ais_valid, hi, hv, hc]

theorem list_ais_valid_first (o : Except (List String) (List (List (String × Nat))))
    (f : Bool) (s : ListValidState) (hi : s.has_initial_data = true)
    (hf : s.has_validated_data = false) :
    list_ais_valid o f s
      = (match o with
         | Except.ok vd =>
            let s2 := { s with has_validated_data := true, validated_data := vd, errors := [] }
            (s2, Except.ok true, true)
         | Except.error detail =>
            let s2 := { s with has_validated_data := true, validated_data := [],
                               errors := detail }
            (s2,
             if !detail.isEmpty && f then Except.error (AisExc.validation_error detail)
             else Except.ok detail.isEmpty, true)) := by
  cases o with
  | ok vd => simp [list_ais_valid, hi, hf]
  | error detail =>
    by_cases hc : ¬detail = [] ∧ f = true <;> simp [list_ais_valid, hi, hf, hc]

theorem list_ais_valid_second (o : Except (List String) (List (List (String × Nat))))
    (f : Bool) (s : ListValidState) (hi : s.has_initial_data = true)
    (hv : s.has_validated_data = true) :
    list_ais_valid o f s
      = (s,
         if !s.errors.isEmpty && f then Except.error (AisExc.validation_error s.errors)
         else Except.ok s.errors.isEmpty, false) := by
  by_cases hc : ¬s.errors = [] ∧ f = true <;> simp [list_ais_valid, hi, hv, hc]

/-- C5.  A second call to ais_valid never re-runs validation (for any outcome
the second run would have produced and any raise_exception flags): the first
call runs validation and stores exactly its result, the second call reports
that it ran nothing, leaves the state unchanged, and returns the same outcome
as the first call when invoked with the same flag.  This holds for the
single-instance and the list serializer alike. -/
theorem ais_valid_idempotent
    (o₁ o₂ : Except (List String) (List (String × Nat)))
    (p₁ p₂ : Except (List String) (List (List (String × Nat))))
    (f₁ f₂ g₁ g₂ : Bool) (s : BaseValidState) (t : ListValidState)
    (hsi : s.has_initial_data = true) (hsf : s.has_validated_data = false)
    (hti : t.has_initial_data = true) (htf : t.has_validated_data = false) :
    ((base_ais_valid o₁ f₁ s).2.2 = true
    ∧ (base_ais_valid o₂ f₂ (base_ais_valid o₁ f₁ s).1).2.2 = false
    ∧ (base_ais_valid o₂ f₂ (base_ais_valid o₁ f₁ s).1).1 = (base_ais_valid o₁ f₁ s).1
    ∧ (base_ais_valid o₁ f₁ s).1.errors
        = (match o₁ with | Except.ok _ => [] | Except.error d => d)
    ∧ (base_ais_valid o₁ f₁ s).1.validated_data
        = (match o₁ with | Except.ok v => v | Except.error _ => [])
    ∧ (f₂ = f₁ →
        (base_ais_valid o₂ f₂ (base_ais_valid o₁ f₁ s).1).2.1
          = (base_ais_valid o₁ f₁ s).2.1))
    ∧ ((list_ais_valid p₁ g₁ t).2.2 = true
    ∧ (list_ais_valid p₂ g₂ (list_ais_valid p₁ g₁ t).1).2.2 = false
    ∧ (list_ais_valid p₂ g₂ (list_ais_valid p₁ g₁ t).1).1 = (list_ais_valid p₁ g₁ t).1
    ∧ (list_ais_valid p₁ g₁ t).1.errors
        = (match p₁ with | Except.ok _ => [] | Except.error d => d)
    ∧ (list_ais_valid p₁ g₁ t).1.validated_data
        = (match p₁ with | Except.ok v => v | Except.error _ => [])
    ∧ (g₂ = g₁ →
        (list_ais_valid p₂ g₂ (list_ais_valid p₁ g₁ t).1).2.1
          = (list_ais_valid p₁ g₁ t).2.1)) := by
  constructor
  · have h1 := base_ais_valid_first o₁ f₁ s hsi hsf
    have hst : (base_ais_valid o₁ f₁ s).1.has_initial_data = true := by
      rw [h1]; cases o₁ <;> simpa using hsi
    have hsv : (base_ais_valid o₁ f₁ s).1.has_validated_data = true := by
      rw [h1]; cases o₁ <;> simp
    have h2 := fun o f => base_ais_valid_second o f (base_ais_valid o₁ f₁ s).1 hst hsv
    refine ⟨?_, ?_, ?_, ?_, ?_, ?_⟩
    · rw [h1]; cases o₁ with
      | ok vd => simp
      | error detail => by_cases hc : !detail.isEmpty && f₁ <;> simp [hc]
    · rw [h2 o₂ f₂]
    · rw [h2 o₂ f₂]
    · rw [h1]; cases o₁ with
      | ok vd => simp
      | error detail => by_cases hc : !detail.isEmpty && f₁ <;> simp [hc]
    · rw [h1]; cases o₁ with
      | ok vd => simp
      | error detail => by_cases hc : !detail.isEmpty && f₁ <;> simp [hc]
    · intro hf
      subst hf
      rw [h2 o₂ f₂]
      conv_rhs => rw [h1]
      rw [h1]
      cases o₁ with
      | ok vd => simp
      | error detail => by_cases hc : !detail.isEmpty && f₂ <;> simp [hc]
  · have h1 := list_ais_valid_first p₁ g₁ t hti htf
    have hst : (list_ais_valid p₁ g₁ t).1.has_initial_data = true := by
      rw [h1]; cases p₁ <;> simpa using hti
    have hsv : (list_ais_valid p₁ g₁ t).1.has_validated_data = true := by
      rw [h1]; cases p₁ <;> simp
    have h2 := fun o f => list_ais_valid_second o f (list_ais_valid p₁ g₁ t).1 hst hsv
    refine ⟨?_, ?_, ?_, ?_, ?_, ?_⟩
    · rw [h1]; cases p₁ with
      | ok vd => simp
      | error detail => by_cases hc : !detail.isEmpty && g₁ <;> simp [hc]
    · rw [h2 p₂ g₂]
    · rw [h2 p₂ g₂]
    · rw [h1]; cases p₁ with
      | ok vd => simp
      | error detail => by_cases hc : !detail.isEmpty && g₁ <;> simp [hc]
    · rw [h1]; cases p₁ with
      | ok vd => simp
      | error detail => by_cases hc : !detail.isEmpty && g₁ <;> simp [hc]
    · intro hf
      subst hf
      rw [h2 p₂ g₂]
      conv_rhs => rw [h1]
      rw [h1]
      cases p₁ with
      | ok vd => simp
      | error detail => by_cases hc : !detail.isEmpty && g₂ <;> simp [hc]

/-- Witness for C5: a failed first validation is cached; the second call runs
nothing even though its hypothetical outcome differs, and returns the same
boolean. -/
theorem ais_valid_idempotent_witness :
    (base_ais_valid (Except.ok [("a", 1)]) false
        (base_ais_valid (Except.error ["required"]) false ⟨true, false, [], []⟩).1).2.2
      = false
    ∧ (base_ais_valid (Except.ok [("a", 1)]) false
        (base_ais_valid (Except.error ["required"]) false ⟨true, false, [], []⟩).1).2.1
      = (base_ais_valid (Except.error ["required"]) false
          (⟨true, false, [], []⟩ : BaseValidState)).2.1 := by
  have h := ais_valid_idempotent (Except.error ["required"]) (Except.ok [("a", 1)])
    (Except.error ["x"]) (Except.ok []) false false false false
    ⟨true, false, [], []⟩ ⟨true, false, [], []⟩ rfl rfl rfl rfl
  exact ⟨h.1.2.1, h.1.2.2.2.2.2 rfl⟩

theorem ato_internal_value_go_eq (fields : List WritableField)
    (data : List (String × Nat)) :
    ato_internal_value_go fields data
      = (fields.map WritableField.field_name,
         fields.filterMap (fun f =>
           match f.run_validation data with
           | FieldTry.ok v => some (f.source, v)
           | _ => none),
         fields.filterMap fun f =>
           match f.run_validation data with
           | FieldTry.validation_error d => some (f.field_name, d)
           | FieldTry.django_error e => some (f.field_name, get_error_detail e)
           | _ => none) := by
  induction fields with
  | nil => rfl
  | cons f rest ih =>
    cases hr : f.run_validation data <;>
      simp [ato_internal_value_go, List.filterMap_cons, hr, ih]

/-- C6.  ato_internal_value validates every writable field even when earlier
fields fail; the raised error detail maps exactly the failing field names to
their error lists (fields that validate cleanly or signal skip contribute no
entry), and a validation failure is raised if and only if at least one field
failed. -/
theorem ato_internal_value_spec (fields : List WritableField)
    (data : List (String × Nat)) :
    ((ato_internal_value fields (SerializerInput.mapping data)).1
        = fields.map WritableField.field_name)
    ∧ (∀ errs, (ato_internal_value fields (SerializerInput.mapping data)).2
          = Except.error errs →
        errs = fields.filterMap fun f =>
          match f.run_validation data with
          | FieldTry.validation_error d => some (f.field_name, d)
          | FieldTry.django_error e => some (f.field_name, get_error_detail e)
          | _ => none)
    ∧ ((∃ errs, (ato_internal_value fields (SerializerInput.mapping data)).2
          = Except.error errs)
        ↔ ∃ f ∈ fields,
            match f.run_validation data with
            | FieldTry.validation_error _ => True
            | FieldTry.django_error _ => True
            | _ => False)
    ∧ (∀ ret, (ato_internal_value fields (SerializerInput.mapping data)).2
          = Except.ok ret →
        ret = fields.filterMap fun f =>
          match f.run_validation data with
          | FieldTry.ok v => some (f.source, v)
          | _ => none) := by
  have hgo := ato_internal_value_go_eq fields data
  have herr : (ato_internal_value fields (SerializerInput.mapping data))
      = (fields.map WritableField.field_name,
         if (fields.filterMap fun f =>
             match f.run_validation data with
             | FieldTry.validation_error d => some (f.field_name, d)
             | FieldTry.django_error e => some (f.field_name, get_error_detail e)
             | _ => none).isEmpty
         then Except.ok (fields.filterMap fun f =>
           match f.run_validation data with
           | FieldTry.ok v => some (f.source, v)
           | _ => none)
         else Except.error (fields.filterMap fun f =>
           match f.run_validation data with
           | FieldTry.validation_error d => some (f.field_name, d)
           | FieldTry.django_error e => some (f.field_name, get_error_detail e)
           | _ => none)) := by
    simp only [ato_internal_value, hgo]
  rw [herr]
  by_cases hc : (fields.filterMap fun f =>
      match f.run_validation data with
      | FieldTry.validation_error d => some (f.field_name, d)
      | FieldTry.django_error e => some (f.field_name, get_error_detail e)
      | _ => none).isEmpty
  · have hnil : (fields.filterMap fun f =>
        match f.run_validation data with
        | FieldTry.validation_error d => some (f.field_name, d)
        | FieldTry.django_error e => some (f.field_name, get_error_detail e)
        | _ => none) = [] := List.isEmpty_iff.mp hc
    rw [if_pos hc]
    refine ⟨rfl, ?_, ?_, ?_⟩
    · intro errs h
      simp at h
    · constructor
      · intro h
        rcases h with ⟨errs, h⟩
        simp at h
      · intro h
        exfalso
        rcases h with ⟨f, hf, hmatch⟩
        have hnone := List.filterMap_eq_nil_iff.mp hnil f hf
        revert hmatch hnone
        cases f.run_validation data <;> simp
    · intro ret h
      simp only [Except.ok.injEq] at h
      exact h.symm
  · rw [if_neg hc]
    have hne : (fields.filterMap fun f =>
        match f.run_validation data with
        | FieldTry.validation_error d => some (f.field_name, d)
        | FieldTry.django_error e => some (f.field_name, get_error_detail e)
        | _ => none) ≠ [] := fun h0 => hc (by simp [h0])
    refine ⟨rfl, ?_, ?_, ?_⟩
    · intro errs h
      simp only [Except.error.injEq] at h
      exact h.symm
    · constructor
      · intro _
        rcases List.exists_mem_of_ne_nil _ hne with ⟨entry, hentry⟩
        rcases List.mem_filterMap.mp hentry with ⟨f, hf, hfe⟩
        refine ⟨f, hf, ?_⟩
        revert hfe
        cases f.run_validation data <;> simp
      · intro _
        exact ⟨_, rfl⟩
    · intro ret h
      simp at h

/-- Witness for C6 at the schema of the spec example: username and password
validate, age fails with the required message; every field is validated and
the error set contains exactly the age entry. -/
theorem ato_internal_value_spec_witness :
    (ato_internal_value
       [⟨"username", "username", fun _ => FieldTry.ok 1⟩,
        ⟨"password", "password", fun _ => FieldTry.ok 2⟩,
        ⟨"age", "age", fun _ => FieldTry.validation_error ["This field is required."]⟩]
       (SerializerInput.mapping [("username", 1), ("password", 2)])).1
      = ["username", "password", "age"]
    ∧ (ato_internal_value
       [⟨"username", "username", fun _ => FieldTry.ok 1⟩,
        ⟨"password", "password", fun _ => FieldTry.ok 2⟩,
        ⟨"age", "age", fun _ => FieldTry.validation_error ["This field is required."]⟩]
       (SerializerInput.mapping [("username", 1), ("password", 2)])).2
      = Except.error [("age", ["This field is required."])] := by
  have h := ato_internal_value_spec
    [⟨"username", "username", fun _ => FieldTry.ok 1⟩,
     ⟨"password", "password", fun _ => FieldTry.ok 2⟩,
     ⟨"age", "age", fun _ => FieldTry.validation_error ["This field is required."]⟩]
    [("username", 1), ("password", 2)]
  exact ⟨h.1, rfl⟩

theorem arun_validators_go_no_dict (vs : List ValidatorV) (acc : List String)
    (h : ∀ v ∈ vs, v.is_dict_error = false) :
    arun_validators_go vs acc
      = (vs.map ValidatorV.id,
         if (acc ++ vs.flatMap ValidatorV.contribution).isEmpty then Except.ok ()
         else Except.error
           (RunValidatorsExc.flat_error (acc ++ vs.flatMap ValidatorV.contribution))) := by
  induction vs generalizing acc with
  | nil => simp [arun_validators_go]
  | cons v rest ih =>
    have hv : v.is_dict_error = false := h v (by simp)
    have hrest := fun acc2 => ih acc2 (fun u hu => h u (by simp [hu]))
    cases ho : v.outcome with
    | ok =>
      simp [arun_validators_go, invoke_validator, ho, hrest acc, ValidatorV.contribution]
    | validation_error d =>
      cases d with
      | flat msgs =>
        simp [arun_validators_go, invoke_validator, ho, hrest (acc ++ msgs),
          ValidatorV.contribution]
      | dict_detail entries =>
        exfalso
        simp [ValidatorV.is_dict_error, ho] at hv
    | django_error e =>
      simp [arun_validators_go, invoke_validator, ho, hrest (acc ++ get_error_detail e),
        ValidatorV.contribution]

theorem arun_validators_go_dict (pre : List ValidatorV) (v : ValidatorV)
    (post : List ValidatorV) (entries : List (String × List String))
    (acc : List String) (hpre : ∀ u ∈ pre, u.is_dict_error = false)
    (hv : v.outcome = VOutcome.validation_error (ValidationDetail.dict_detail entries)) :
    arun_validators_go (pre ++ v :: post) acc
      = (pre.map ValidatorV.id ++ [v.id],
         Except.error (RunValidatorsExc.dict_error entries)) := by
  induction pre generalizing acc with
  | nil => simp [arun_validators_go, invoke_validator, hv]
  | cons u rest ih =>
    have hu : u.is_dict_error = false := hpre u (by simp)
    have hrest := fun acc2 => ih acc2 (fun x hx => hpre x (by simp [hx]))
    cases ho : u.outcome with
    | ok =>
      simp [arun_validators_go, invoke_validator, ho, hrest acc]
    | validation_error d =>
      cases d with
      | flat msgs =>
        simp [arun_validators_go, invoke_validator, ho, hrest (acc ++ msgs)]
      | dict_detail e2 =>
        exfalso
        simp [ValidatorV.is_dict_error, ho] at hu
    | django_error e =>
      simp [arun_validators_go, invoke_validator, ho, hrest (acc ++ get_error_detail e)]

/-- C7.  arun_validators invokes each validator in declared order through the
classification-appropriate shape, accumulates the details of all raised
validation errors, of the engine kind and the adapted Django kind, into one
ordered list, and raises a single failure at the end if and only if that list
is non-empty; a dict-shaped ValidationError detail is re-raised immediately
and unchanged, stopping the loop, without being merged into the flat list. -/
theorem arun_validators_spec (vs : List ValidatorV) :
    ((∀ v ∈ vs, v.is_dict_error = false) →
      (arun_validators vs).1 = vs.map ValidatorV.id
      ∧ (arun_validators vs).2
          = (if (vs.flatMap ValidatorV.contribution).isEmpty then Except.ok ()
             else Except.error
               (RunValidatorsExc.flat_error (vs.flatMap ValidatorV.contribution))))
    ∧ (∀ pre v post entries, vs = pre ++ v :: post →
        (∀ u ∈ pre, u.is_dict_error = false) →
        v.outcome = VOutcome.validation_error (ValidationDetail.dict_detail entries) →
        arun_validators vs
          = (pre.map ValidatorV.id ++ [v.id],
             Except.error (RunValidatorsExc.dict_error entries))) := by
  constructor
  · intro h
    have := arun_validators_go_no_dict vs [] h
    rw [arun_validators, this]
    simp
  · intro pre v post entries hsplit hpre hv
    subst hsplit
    rw [arun_validators]
    exact arun_validators_go_dict pre v post entries [] hpre hv

/-- Witness for C7: a flat ValidationError and a Django error accumulate into
one ordered flat failure after every validator ran, and a dict-shaped detail
is re-raised unchanged without running the rest. -/
theorem arun_validators_spec_witness :
    arun_validators
      [⟨1, false, true, VOutcome.validation_error (ValidationDetail.flat ["too short"])⟩,
       ⟨2, true, false, VOutcome.django_error ⟨["bad"]⟩⟩,
       ⟨3, false, false, VOutcome.ok⟩]
      = ([1, 2, 3], Except.error (RunValidatorsExc.flat_error ["too short", "bad"]))
    ∧ arun_validators
      [⟨4, false, true, VOutcome.ok⟩,
       ⟨5, false, true, VOutcome.validation_error (ValidationDetail.dict_detail
          [("root", ["x"])])⟩,
       ⟨6, false, true, VOutcome.validation_error (ValidationDetail.flat ["skipped"])⟩]
      = ([4, 5], Except.error (RunValidatorsExc.dict_error [("root", ["x"])])) := by
  constructor
  · have h := (arun_validators_spec
      [⟨1, false, true, VOutcome.validation_error (ValidationDetail.flat ["too short"])⟩,
       ⟨2, true, false, VOutcome.django_error ⟨["bad"]⟩⟩,
       ⟨3, false, false, VOutcome.ok⟩]).1 (by decide)
    have h2 := h.2
    rw [Prod.ext_iff]
    exact ⟨h.1, h2⟩
  · exact (arun_validators_spec
      [⟨4, false, true, VOutcome.ok⟩,
       ⟨5, false, true, VOutcome.validation_error (ValidationDetail.dict_detail
          [("root", ["x"])])⟩,
       ⟨6, false, true, VOutcome.validation_error (ValidationDetail.flat ["skipped"])⟩]).2
      [⟨4, false, true, VOutcome.ok⟩]
      ⟨5, false, true, VOutcome.validation_error (ValidationDetail.dict_detail
          [("root", ["x"])])⟩
      [⟨6, false, true, VOutcome.validation_error (ValidationDetail.flat ["skipped"])⟩]
      [("root", ["x"])] rfl (by decide) rfl

/-- C8.  At the failing input of a one-entry dict with an integer value under
an async child field, DictField.ato_representation returns the unawaited
coroutine cell produced by the returned dict comprehension, while the dict
built by its own first loop (which the return statement discards) holds the
materialized value: the returned values are not fully materialized. -/
theorem dictfield_ato_representation_bug :
    dictfield_ato_representation ⟨true, id, id⟩ [("a", PyV.int 1)]
      = [("a", ReprCell.pending (PyV.int 1))]
    ∧ dictfield_first_loop ⟨true, id, id⟩ [("a", PyV.int 1)]
      = [("a", ReprCell.done (PyV.int 1))] :=
  ⟨rfl, rfl⟩

theorem call_if_callable_error (v : PyVal) (e : UtilsExc)
    (h : call_if_callable v = Except.error e) : e = UtilsExc.value_error := by
  cases v <;> simp [call_if_callable] at h
  all_goals first
  | exact h
  | exact h.symm

theorem utils_aget_attribute_no_reraise (attrs : List String) (inst : PyVal) (e : UtilsExc)
    (h : (utils_aget_attribute inst attrs).2 = Except.error e) :
    e = UtilsExc.value_error := by
  induction attrs generalizing inst with
  | nil => simp [utils_aget_attribute] at h
  | cons a rest ih =>
    cases hstep : fetch_attr inst a with
    | none => simp [utils_aget_attribute, hstep] at h
    | some v =>
      cases hcall : call_if_callable v with
      | error e2 =>
        simp [utils_aget_attribute, hstep, hcall] at h
        refine call_if_callable_error v e ?_
        rw [hcall]
        rw [h]
      | ok w =>
        simp [utils_aget_attribute, hstep, hcall] at h
        exact ih w h

theorem field_aget_attribute_no_skip (f : FieldCfg) (inst : PyVal) :
    (field_aget_attribute f inst).2 ≠ FieldGetResult.skip_field := by
  intro hcontra
  cases hres : (utils_aget_attribute inst f.source_attrs).2 with
  | ok v => simp [field_aget_attribute, hres] at hcontra
  | error e =>
    have hve := utils_aget_attribute_no_reraise f.source_attrs inst e hres
    subst hve
    simp [field_aget_attribute, hres] at hcontra

/-- C9 counterexample.  A non-required, non-allow-null field without a
default whose source attribute is missing on the instance: the representation
pass emits the field with a None value; it is not omitted. -/
theorem missing_attribute_null_counterexample :
    serializer_ato_representation
      [⟨"x", ⟨["missing"], Option.none, false, false⟩, false, id, id⟩]
      (PyVal.obj [])
      = Except.ok [("x", PyVal.none)] := rfl

/-- C9 (amended).  The dotted resolver swallows missing-key and
missing-attribute errors and returns None, so the SkipField branch of the
field-level fetch is unreachable; a field whose source path is missing is
therefore emitted with a None value rather than omitted, whatever its
required, allow-null and default policy says. -/
theorem missing_attribute_emits_null
    (attrs : List String) (inst : PyVal) (e : UtilsExc)
    (g : FieldCfg) (inst2 : PyVal)
    (f : ReadableField) (inst3 : PyVal)
    (hmiss : (utils_aget_attribute inst3 f.cfg.source_attrs).2 = Except.ok PyVal.none) :
    ((utils_aget_attribute inst attrs).2 = Except.error e → e = UtilsExc.value_error)
    ∧ (field_aget_attribute g inst2).2 ≠ FieldGetResult.skip_field
    ∧ serializer_ato_representation [f] inst3
        = Except.ok [(f.field_name, PyVal.none)] := by
  refine ⟨utils_aget_attribute_no_reraise attrs inst e,
    field_aget_attribute_no_skip g inst2, ?_⟩
  have hgot : (field_aget_attribute f.cfg inst3).2 = FieldGetResult.got PyVal.none := by
    simp only [field_aget_attribute]
    rw [hmiss]
  rw [serializer_ato_representation, hgot]
  rfl

/-- Witness for C9 (amended) at a concrete object without the source
attribute. -/
theorem missing_attribute_emits_null_witness :
    serializer_ato_representation
      [⟨"age", ⟨["profile", "age"], Option.none, false, true⟩, true, id, id⟩]
      (PyVal.obj [("name", PyVal.str "u")])
      = Except.ok [("age", PyVal.none)] :=
  (missing_attribute_emits_null [] PyVal.none UtilsExc.value_error
    ⟨[], Option.none, false, false⟩ PyVal.none
    ⟨"age", ⟨["profile", "age"], Option.none, false, true⟩, true, id, id⟩
    (PyVal.obj [("name", PyVal.str "u")]) rfl).2.2

/-- C10.  A to-many relationship field fetching the attribute of an instance
whose pk attribute is None returns the empty list at once: the dotted source
path is never traversed (empty hop trace) and the related manager is never
consulted, whatever the field configuration. -/
theorem many_related_pk_none (f : FieldCfg) (inst : PyVal)
    (hpk : py_getattr inst "pk" = some PyVal.none) :
    many_related_aget_attribute f inst = ([], FieldGetResult.got (PyVal.pylist [])) := by
  simp [many_related_aget_attribute, hpk]

/-- Witness for C10: an unsaved model instance with a None pk and a populated
related manager under the source attribute. -/
theorem many_related_pk_none_witness :
    many_related_aget_attribute ⟨["items"], Option.none, false, true⟩
      (PyVal.model_inst PyVal.none [("items", PyVal.manager [PyVal.int 3])])
      = ([], FieldGetResult.got (PyVal.pylist [])) :=
  many_related_pk_none ⟨["items"], Option.none, false, true⟩
    (PyVal.model_inst PyVal.none [("items", PyVal.manager [PyVal.int 3])]) rfl

end Adrf
